import Mathlib

/-!
Verification of the `gen` migration-file generator (src/src/main.rs).

The tool is a single linear pipeline: locate a root marker, scan existing
migration files for the current day's highest sequence index, compose a
filename, optionally render a template.  We embed each pure stage of
`main.rs` as a Lean function and prove the spec's claims about them.

Modelling conventions, fixed once here:
* `chrono::NaiveDate` is a linearly ordered type; the claims use only its
  order, so dates are modelled by `Nat` (e.g. the `YYYYMMDD` numeral).
* Sequence indices are parsed into Rust `i32`; they are modelled by `Int`
  (the parsed values are 0..99, far from any overflow).
* Fallible Rust functions returning `anyhow::Result` become `Except String`.
* A Rust `panic!` / `Option::unwrap` on `None` is modelled by `Option`:
  `none` marks the panic.
* Filesystem paths are lists of components, innermost component first, so
  `Path::pop` is `List.tail` and the filesystem root is `[]`.  The
  filesystem itself is abstracted by the predicate saying which directories
  contain the `.gen_root` marker file.
* The glob + regex stage of `find_last_file_for_current_day` is I/O; the
  function is modelled over the list of `(date, index)` pairs it parses
  from filenames, in scan order.
-/

namespace Gen

/-- The seven CLI operations (`enum Operation` in main.rs). -/
inductive Operation where
  | Script
  | CreateTable
  | AlterTable
  | DropTable
  | AddColumn
  | AlterColumn
  | DropColumn
deriving DecidableEq

/-- Rust `name.replace(' ', "_")`: every space becomes an underscore. -/
def replaceSpaces (s : String) : String :=
  ⟨s.data.map (fun c => if c = ' ' then '_' else c)⟩

/-- `Operation::to_file_name` from main.rs.  The three column operations
call `column.unwrap()`; the panic on a missing column is modelled by
returning `none`. -/
def Operation.to_file_name (op : Operation) (name : String) (column : Option String) :
    Option String :=
  match op with
  | .Script => some (replaceSpaces name)
  | .CreateTable => some ("create table" ++ " " ++ name)
  | .AlterTable => some ("alter table" ++ " " ++ name)
  | .DropTable => some ("drop table" ++ " " ++ name)
  | .AddColumn => column.map (fun c => "add column" ++ " " ++ c ++ " to " ++ name)
  | .AlterColumn => column.map (fun c => "alter column" ++ " " ++ c ++ " in " ++ name)
  | .DropColumn => column.map (fun c => "drop column" ++ " " ++ c ++ " from " ++ name)

/-- One piece of a template: literal text or a `{field}` placeholder of
`TemplateData`. -/
inductive Piece where
  | lit : String → Piece
  | table
  | column
  | schema
  | sep
deriving DecidableEq

/-- `struct TemplateData` from main.rs.  The `template` field holds the
static template text; since the text is substituted field-by-field by
tinytemplate, it is modelled as alternating literal and placeholder
pieces. -/
structure TemplateData where
  table_name : String
  column_name : Option String
  schema_name : Option String
  dot : Option String
  template : List Piece
deriving DecidableEq

/-- Modelled from the spec: templates/create_table.tmpl is not under src/
(it is pulled in by `include_str!`).  Per §4.4 the create-table template
takes table/schema/separator, the schema prefixed with the separator
before the table name. -/
def CREATE_TABLE_TMPL : List Piece :=
  [.lit "create table ", .schema, .sep, .table, .lit " (\n);\n"]

/-- Modelled from the spec: templates/add_column.tmpl is not under src/.
Per §4.4 the add-column template takes table/column/schema/separator. -/
def ADD_COLUMN_TMPL : List Piece :=
  [.lit "alter table ", .schema, .sep, .table, .lit " add column ", .column, .lit ";\n"]

/-- Modelled from the spec: templates/drop_column.tmpl is not under src/.
Per §4.4 the drop-column template takes table/column/schema/separator. -/
def DROP_COLUMN_TMPL : List Piece :=
  [.lit "alter table ", .schema, .sep, .table, .lit " drop column ", .column, .lit ";\n"]

/-- tinytemplate renders an absent optional field as empty text. -/
def optStr : Option String → String
  | none => ""
  | some s => s

/-- `Operation::get_template_data` from main.rs: `Some` data only for
CreateTable, AddColumn and DropColumn; `dot` is `schema.map(|_| ".")`. -/
def Operation.get_template_data (op : Operation) (name : String)
    (schema column : Option String) : Option TemplateData :=
  match op with
  | .Script => none
  | .CreateTable =>
      some ⟨name, none, schema, schema.map (fun _ => "."), CREATE_TABLE_TMPL⟩
  | .AlterTable => none
  | .DropTable => none
  | .AddColumn =>
      some ⟨name, column, schema, schema.map (fun _ => "."), ADD_COLUMN_TMPL⟩
  | .AlterColumn => none
  | .DropColumn =>
      some ⟨name, column, schema, schema.map (fun _ => "."), DROP_COLUMN_TMPL⟩

/-- Substitute one template piece from the data. -/
def renderPiece (d : TemplateData) : Piece → String
  | .lit s => s
  | .table => d.table_name
  | .column => optStr d.column_name
  | .schema => optStr d.schema_name
  | .sep => optStr d.dot

/-- Modelled from the spec: `render_template` in main.rs delegates to the
external tinytemplate crate; rendering substitutes each placeholder of the
template with the corresponding `TemplateData` field, absent optional
fields rendering as empty. -/
def render_template (d : TemplateData) : String :=
  d.template.foldl (fun acc p => acc ++ renderPiece d p) ""

/-- `struct Args` from main.rs (the parsed CLI request). -/
structure Args where
  operation : Operation
  name : String
  column : Option String
  schema : Option String
deriving DecidableEq

/-- `Args::validate` from main.rs: error iff the operation is AddColumn,
AlterColumn or DropColumn and `column` is `None`. -/
def Args.validate (a : Args) : Except String Unit :=
  match a.operation, a.column with
  | .AddColumn, none => .error "column is required"
  | .AlterColumn, none => .error "column is required"
  | .DropColumn, none => .error "column is required"
  | _, _ => .ok ()

/-- Rust `Iterator::max_by(|a, b| a.0.cmp(&b.0))` folds left keeping the
accumulator only when it is strictly greater, so on ties the LATER element
wins (std: of several equal maxima the last is returned). -/
def maxByDateAux (acc : Nat × Int) : List (Nat × Int) → Nat × Int
  | [] => acc
  | e :: es => maxByDateAux (if acc.1 > e.1 then acc else e) es

/-- The `max_by` call of `find_last_file_for_current_day`: the entry with
the maximum date, ties resolved to the last in scan order. -/
def maxByDate : List (Nat × Int) → Option (Nat × Int)
  | [] => none
  | e :: es => some (maxByDateAux e es)

/-- `find_last_file_for_current_day` from main.rs, over the `(date, index)`
entries its regex stage parses from the globbed filenames, in scan order:
take the max-by-date entry; error if its date is after `today`; return its
index if its date is `today`; otherwise (or with no entries) no index. -/
def find_last_file_for_current_day (today : Nat) (entries : List (Nat × Int)) :
    Except String (Option Int) :=
  match maxByDate entries with
  | none => .ok none
  | some (date, last) =>
      if today < date then .error ("found date " ++ toString date ++ " in future")
      else if date = today then .ok (some last)
      else .ok none

/-- `last_index.map(|index| index + 1).unwrap_or(1)` from main. -/
def nextIndex : Option Int → Int
  | some i => i + 1
  | none => 1

/-- Rust `format!("{index:02}")` on an `i32`: minimum width 2, zero fill
inserted between the sign and the digits. -/
def pad2 (n : Int) : String :=
  let sign := if n < 0 then "-" else ""
  let digits := toString n.natAbs
  sign ++ ⟨List.replicate (2 - (sign.length + digits.length)) '0'⟩ ++ digits

/-- `format!("{current_date}{index:02} - {file_name_part}.sql")`. -/
def mkFileName (dateStr : String) (index : Int) (part : String) : String :=
  dateStr ++ pad2 index ++ " - " ++ part ++ ".sql"

/-- The bytes written to the created file in `main`: empty when
`get_template_data` selects no template, the rendered template otherwise. -/
def fileContent (a : Args) : String :=
  match a.operation.get_template_data a.name a.schema a.column with
  | none => ""
  | some d => render_template d

/-- The pure tail of `main` in main.rs, after the root is located:
validate, scan for today's last index, compose the filename, render.
Returns the written filename and its content.  `dateStr` is today
formatted `%Y%m%d`; `entries` are the scanner's parsed entries. -/
def mainRun (a : Args) (today : Nat) (entries : List (Nat × Int)) (dateStr : String) :
    Except String (String × String) :=
  match a.validate with
  | .error e => .error e
  | .ok () =>
    match find_last_file_for_current_day today entries with
    | .error e => .error e
    | .ok last =>
      match a.operation.to_file_name a.name a.column with
      | none => .error "panicked at unwrap on None"
      | some part => .ok (mkFileName dateStr (nextIndex last) part, fileContent a)

/-- `find_root` from main.rs over the abstract filesystem `m` (which
directories contain the `.gen_root` marker): check the current directory,
else pop one component; at the filesystem root `[]` (whose parent is
`None`) fail. -/
def find_root (m : List String → Bool) : List String → Except String (List String)
  | [] => if m [] then .ok [] else .error "Could not find any gen root"
  | c :: rest => if m (c :: rest) then .ok (c :: rest) else find_root m rest

/-! ## Helper lemmas about the `max_by` fold and the scanner -/

theorem maxByDateAux_le (l : List (Nat × Int)) :
    ∀ acc : Nat × Int, acc.1 ≤ (maxByDateAux acc l).1 := by
  induction l with
  | nil => intro acc; exact le_refl _
  | cons e es ih =>
    intro acc
    simp only [maxByDateAux]
    rcases Nat.lt_or_ge e.1 acc.1 with h | h
    · rw [if_pos h]; exact ih acc
    · rw [if_neg (by omega)]; exact le_trans h (ih e)

theorem maxByDateAux_spec (l : List (Nat × Int)) :
    ∀ acc : Nat × Int, ∃ pre post,
      acc :: l = pre ++ maxByDateAux acc l :: post ∧
      (∀ e ∈ pre, e.1 ≤ (maxByDateAux acc l).1) ∧
      (∀ e ∈ post, e.1 < (maxByDateAux acc l).1) := by
  induction l with
  | nil => intro acc; exact ⟨[], [], rfl, by simp, by simp⟩
  | cons e es ih =>
    intro acc
    simp only [maxByDateAux]
    rcases Nat.lt_or_ge e.1 acc.1 with h | h
    · rw [if_pos h]
      have hle := maxByDateAux_le es acc
      obtain ⟨pre, post, heq, hpre, hpost⟩ := ih acc
      revert hle heq hpre hpost
      generalize maxByDateAux acc es = M
      intro hle heq hpre hpost
      cases pre with
      | nil =>
        simp only [List.nil_append, List.cons.injEq] at heq
        obtain ⟨h1, h2⟩ := heq
        refine ⟨[], e :: es, ?_, by simp, ?_⟩
        · rw [List.nil_append, h1]
        · intro x hx
          rcases List.mem_cons.mp hx with rfl | hx
          · rw [← h1]; exact h
          · exact hpost x (h2 ▸ hx)
      | cons a pre₂ =>
        simp only [List.cons_append, List.cons.injEq] at heq
        obtain ⟨h1, h2⟩ := heq
        refine ⟨acc :: e :: pre₂, post, ?_, ?_, hpost⟩
        · rw [h2]; rfl
        · intro x hx
          have hacc : acc.1 ≤ M.1 := by
            rw [h1]; exact hpre a (List.mem_cons_self _ _)
          rcases List.mem_cons.mp hx with rfl | hx
          · exact hacc
          · rcases List.mem_cons.mp hx with rfl | hx
            · omega
            · exact hpre x (List.mem_cons_of_mem _ hx)
    · rw [if_neg (by omega)]
      have hle := maxByDateAux_le es e
      obtain ⟨pre, post, heq, hpre, hpost⟩ := ih e
      revert hle heq hpre hpost
      generalize maxByDateAux e es = M
      intro hle heq hpre hpost
      refine ⟨acc :: pre, post, ?_, ?_, hpost⟩
      · exact congrArg (List.cons acc) heq
      · intro x hx
        rcases List.mem_cons.mp hx with rfl | hx
        · exact le_trans h hle
        · exact hpre x hx

theorem maxByDate_spec (entries : List (Nat × Int)) (m : Nat × Int)
    (h : maxByDate entries = some m) :
    ∃ pre post, entries = pre ++ m :: post ∧
      (∀ e ∈ pre, e.1 ≤ m.1) ∧ (∀ e ∈ post, e.1 < m.1) := by
  cases entries with
  | nil => simp [maxByDate] at h
  | cons e es =>
    simp only [maxByDate, Option.some.injEq] at h
    subst h
    exact maxByDateAux_spec es e

theorem maxByDate_mem (entries : List (Nat × Int)) (m : Nat × Int)
    (h : maxByDate entries = some m) : m ∈ entries := by
  obtain ⟨pre, post, heq, -, -⟩ := maxByDate_spec entries m h
  rw [heq]
  exact List.mem_append.mpr (Or.inr (List.mem_cons_self m post))

theorem maxByDate_max (entries : List (Nat × Int)) (m : Nat × Int)
    (h : maxByDate entries = some m) : ∀ e ∈ entries, e.1 ≤ m.1 := by
  obtain ⟨pre, post, heq, hpre, hpost⟩ := maxByDate_spec entries m h
  intro e he
  rw [heq] at he
  rcases List.mem_append.mp he with h1 | h1
  · exact hpre e h1
  · rcases List.mem_cons.mp h1 with rfl | h1
    · exact le_refl _
    · exact le_of_lt (hpost e h1)

theorem maxByDate_eq_none (entries : List (Nat × Int)) :
    maxByDate entries = none ↔ entries = [] := by
  cases entries <;> simp [maxByDate]

theorem find_last_ok_none_of_past (today : Nat) (entries : List (Nat × Int))
    (h : ∀ e ∈ entries, e.1 < today) :
    find_last_file_for_current_day today entries = .ok none := by
  cases hm : maxByDate entries with
  | none => simp only [find_last_file_for_current_day, hm]
  | some m =>
    obtain ⟨d, i⟩ := m
    have hd : d < today := h (d, i) (maxByDate_mem entries (d, i) hm)
    simp only [find_last_file_for_current_day, hm]
    rw [if_neg (by omega), if_neg (by omega)]

/-! ## The claims -/

/-- Claim C1: in a successful run the sequence index used in the new
filename is 1 when the scanner finds no entry dated today (in particular
when every existing file is past-dated), and N+1 when the scanner's entry
for today has index N; the index is rendered by `pad2`, which zero-pads to
at least two digits. -/
theorem c1_next_index (a : Args) (today : Nat) (entries : List (Nat × Int))
    (dateStr part : String) (hv : a.validate = .ok ())
    (hp : a.operation.to_file_name a.name a.column = some part) :
    (find_last_file_for_current_day today entries = .ok none →
      mainRun a today entries dateStr = .ok (mkFileName dateStr 1 part, fileContent a)) ∧
    ((∀ e ∈ entries, e.1 < today) →
      find_last_file_for_current_day today entries = .ok none) ∧
    (∀ N : Int, find_last_file_for_current_day today entries = .ok (some N) →
      mainRun a today entries dateStr = .ok (mkFileName dateStr (N + 1) part, fileContent a)) ∧
    (∀ n : Int, 2 ≤ (pad2 n).length) ∧
    (∀ n : Int, 0 ≤ n → n ≤ 9 → pad2 n = "0" ++ toString n.natAbs) := by
  refine ⟨?_, find_last_ok_none_of_past today entries, ?_, ?_, ?_⟩
  · intro hs
    simp only [mainRun, hv, hs, hp, nextIndex]
  · intro N hs
    simp only [mainRun, hv, hs, hp, nextIndex]
  · intro n
    unfold pad2
    simp only [String.length_append]
    have h1 : ∀ (k : Nat), ((⟨List.replicate k '0'⟩ : String)).length = k := by
      intro k
      show (List.replicate k '0').length = k
      exact List.length_replicate k '0'
    rw [h1]
    omega
  · intro n h0 h9
    interval_cases n <;> rfl

/-- Claim C2, as stated, is false: the scanner's `max_by` compares only
dates and Rust's `max_by` keeps the LAST of several maxima in iteration
order, not the one with the greatest index.  With parsed entries
[(5, 7), (5, 2)] — realizable, e.g. two same-day files in different
subdirectories globbed in this order — the scanner returns index 2, not
the maximum index 7 for that date. -/
theorem c2_counterexample :
    find_last_file_for_current_day 5 [(5, 7), (5, 2)] = .ok (some 2) ∧
    ¬ find_last_file_for_current_day 5 [(5, 7), (5, 2)] = .ok (some 7) := by
  constructor
  · rfl
  · intro h
    rw [show find_last_file_for_current_day 5 [(5, 7), (5, 2)] = .ok (some 2) from rfl] at h
    simp at h

/-- Claim C2 amended: the scanner selects an entry with the maximum date;
when several entries share that maximum date it returns the sequence index
of the last such entry in scan order (every earlier entry has a date at
most the maximum, every later entry a strictly smaller date). -/
theorem c2_last_of_max_date (today : Nat) (entries : List (Nat × Int)) (N : Int)
    (h : find_last_file_for_current_day today entries = .ok (some N)) :
    ∃ pre post, entries = pre ++ (today, N) :: post ∧
      (∀ e ∈ pre, e.1 ≤ today) ∧ (∀ e ∈ post, e.1 < today) := by
  cases hm : maxByDate entries with
  | none =>
    simp only [find_last_file_for_current_day, hm] at h
    simp at h
  | some m =>
    obtain ⟨d, i⟩ := m
    simp only [find_last_file_for_current_day, hm] at h
    by_cases h1 : today < d
    · simp [h1] at h
    · by_cases h2 : d = today
      · simp only [if_neg h1, if_pos h2, Except.ok.injEq, Option.some.injEq] at h
        obtain ⟨pre, post, heq, hpre, hpost⟩ := maxByDate_spec entries (d, i) hm
        subst h2
        subst h
        exact ⟨pre, post, heq, hpre, hpost⟩
      · simp [h1, h2] at h

/-- Claim C3: if some parsed entry (hence the maximum date) is strictly
after today, the scanner fails with the future-date error and the run
creates no file; if every entry's date is today or earlier, the scan
succeeds. -/
theorem c3_future_date (today : Nat) (entries : List (Nat × Int)) (a : Args)
    (dateStr : String) :
    ((∃ e ∈ entries, today < e.1) →
      (∃ msg, find_last_file_for_current_day today entries = .error msg) ∧
      (∃ msg, mainRun a today entries dateStr = .error msg)) ∧
    ((∀ e ∈ entries, e.1 ≤ today) →
      ∃ v, find_last_file_for_current_day today entries = .ok v) := by
  constructor
  · intro hfut
    obtain ⟨e, he, hlt⟩ := hfut
    have hscan : ∃ msg, find_last_file_for_current_day today entries = .error msg := by
      cases hm : maxByDate entries with
      | none =>
        rw [maxByDate_eq_none] at hm
        subst hm
        simp at he
      | some m =>
        obtain ⟨d, i⟩ := m
        have hd : today < d := lt_of_lt_of_le hlt (maxByDate_max entries (d, i) hm e he)
        refine ⟨"found date " ++ toString d ++ " in future", ?_⟩
        simp only [find_last_file_for_current_day, hm, if_pos hd]
    refine ⟨hscan, ?_⟩
    obtain ⟨msg, hmsg⟩ := hscan
    cases hval : a.validate with
    | error ev => exact ⟨ev, by simp only [mainRun, hval]⟩
    | ok u => cases u; exact ⟨msg, by simp only [mainRun, hval, hmsg]⟩
  · intro hpast
    cases hm : maxByDate entries with
    | none => exact ⟨none, by simp only [find_last_file_for_current_day, hm]⟩
    | some m =>
      obtain ⟨d, i⟩ := m
      have hd : d ≤ today := hpast (d, i) (maxByDate_mem entries (d, i) hm)
      by_cases h2 : d = today
      · refine ⟨some i, ?_⟩
        simp only [find_last_file_for_current_day, hm]
        rw [if_neg (by omega), if_pos h2]
      · refine ⟨none, ?_⟩
        simp only [find_last_file_for_current_day, hm]
        rw [if_neg (by omega), if_neg h2]

/-- Claim C4: `Args::validate` fails exactly when the operation is
AddColumn, AlterColumn or DropColumn and no column was given; every other
combination of operation and arguments validates. -/
theorem c4_validate_iff (a : Args) :
    ((∃ msg, a.validate = .error msg) ↔
      ((a.operation = .AddColumn ∨ a.operation = .AlterColumn ∨
          a.operation = .DropColumn) ∧ a.column = none)) ∧
    (a.validate = .ok () ↔
      ¬ ((a.operation = .AddColumn ∨ a.operation = .AlterColumn ∨
          a.operation = .DropColumn) ∧ a.column = none)) := by
  obtain ⟨op, n, c, s⟩ := a
  cases op <;> cases c <;> simp [Args.validate]

/-- Claim C5: the composed filename description follows the fixed phrasing
table: Script replaces spaces by underscores in the name; the other six
operations produce "create table {name}", "alter table {name}",
"drop table {name}", "add column {column} to {name}",
"alter column {column} in {name}" and "drop column {column} from {name}". -/
theorem c5_phrasing_table (name column : String) (oc : Option String) :
    Operation.Script.to_file_name name oc = some (replaceSpaces name) ∧
    Operation.CreateTable.to_file_name name oc = some ("create table " ++ name) ∧
    Operation.AlterTable.to_file_name name oc = some ("alter table " ++ name) ∧
    Operation.DropTable.to_file_name name oc = some ("drop table " ++ name) ∧
    Operation.AddColumn.to_file_name name (some column)
      = some ("add column " ++ column ++ " to " ++ name) ∧
    Operation.AlterColumn.to_file_name name (some column)
      = some ("alter column " ++ column ++ " in " ++ name) ∧
    Operation.DropColumn.to_file_name name (some column)
      = some ("drop column " ++ column ++ " from " ++ name) :=
  ⟨rfl, rfl, rfl, rfl, rfl, rfl, rfl⟩

/-- Claim C6: `find_root` returns the nearest ancestor of the starting
directory (itself included) containing the `.gen_root` marker — every
marked ancestor is at or above the returned one — and it fails exactly
when no ancestor up to and including the filesystem root is marked.
Paths are component lists, innermost first, so the ancestors of `p` are
its suffixes and the filesystem root is `[]`. -/
theorem c6_find_root (m : List String → Bool) (p : List String) :
    ((∃ msg, find_root m p = .error msg) ↔ ∀ q, q <:+ p → m q = false) ∧
    (∀ q, find_root m p = .ok q →
      m q = true ∧ q <:+ p ∧ ∀ r, r <:+ p → m r = true → r <:+ q) := by
  induction p with
  | nil =>
    cases hm : m [] with
    | false =>
      constructor
      · simp only [find_root, hm, Bool.false_eq_true, if_false]
        constructor
        · intro _ q hq
          rw [List.suffix_nil.mp hq]
          exact hm
        · intro _
          exact ⟨"Could not find any gen root", rfl⟩
      · intro q hq
        simp only [find_root, hm, Bool.false_eq_true, if_false] at hq
        cases hq
    | true =>
      constructor
      · simp only [find_root, hm, if_true]
        constructor
        · rintro ⟨msg, hmsg⟩
          cases hmsg
        · intro hall
          rw [hall [] List.nil_suffix] at hm
          cases hm
      · intro q hq
        simp only [find_root, hm, if_true, Except.ok.injEq] at hq
        subst hq
        refine ⟨hm, List.nil_suffix, ?_⟩
        intro r hr _
        exact hr
  | cons c rest ih =>
    cases hm : m (c :: rest) with
    | false =>
      have hstep : find_root m (c :: rest) = find_root m rest := by
        simp only [find_root, hm, Bool.false_eq_true, if_false]
      constructor
      · rw [hstep, ih.1]
        constructor
        · intro hall q hq
          rcases List.suffix_cons_iff.mp hq with rfl | hq
          · exact hm
          · exact hall q hq
        · intro hall q hq
          exact hall q (List.suffix_cons_iff.mpr (Or.inr hq))
      · intro q hq
        rw [hstep] at hq
        obtain ⟨h1, h2, h3⟩ := ih.2 q hq
        refine ⟨h1, List.suffix_cons_iff.mpr (Or.inr h2), ?_⟩
        intro r hr hmr
        rcases List.suffix_cons_iff.mp hr with rfl | hr
        · rw [hmr] at hm
          cases hm
        · exact h3 r hr hmr
    | true =>
      have hstep : find_root m (c :: rest) = .ok (c :: rest) := by
        simp only [find_root, hm, if_true]
      constructor
      · rw [hstep]
        constructor
        · rintro ⟨msg, hmsg⟩
          cases hmsg
        · intro hall
          rw [hall (c :: rest) (List.suffix_refl _)] at hm
          cases hm
      · intro q hq
        rw [hstep] at hq
        injection hq with hq
        subst hq
        exact ⟨hm, List.suffix_refl _, fun r hr _ => hr⟩

/-- Claim C7: no template is selected — and the created file is empty —
for Script, AlterTable, DropTable and AlterColumn; template data is
produced exactly for CreateTable, AddColumn and DropColumn. -/
theorem c7_template_selection (a : Args) :
    ((a.operation = .Script ∨ a.operation = .AlterTable ∨ a.operation = .DropTable ∨
        a.operation = .AlterColumn) →
      a.operation.get_template_data a.name a.schema a.column = none ∧ fileContent a = "") ∧
    ((a.operation.get_template_data a.name a.schema a.column).isSome = true ↔
      (a.operation = .CreateTable ∨ a.operation = .AddColumn ∨
        a.operation = .DropColumn)) := by
  obtain ⟨op, n, c, s⟩ := a
  cases op <;> simp [Operation.get_template_data, fileContent]

/-- Claim C8: template data carries the dot separator exactly when a
schema is supplied, and rendering the create-table template with
schema "public" and table "users" yields SQL referencing public.users,
while without a schema it references bare users (templates are not under
src/ and are modelled from the spec). -/
theorem c8_schema_separator :
    (∀ (op : Operation) (name : String) (schema column : Option String)
        (d : TemplateData), op.get_template_data name schema column = some d →
      d.dot = (if schema.isSome then some "." else none) ∧ d.schema_name = schema) ∧
    (Operation.CreateTable.get_template_data "users" (some "public") none).map
        render_template = some "create table public.users (\n);\n" ∧
    (Operation.CreateTable.get_template_data "users" none none).map
        render_template = some "create table users (\n);\n" := by
  refine ⟨?_, rfl, rfl⟩
  intro op name schema column d h
  cases op <;> simp only [Operation.get_template_data, Option.some.injEq] at h <;>
    first
      | (subst h; cases schema <;> simp)
      | cases h

/-- Claim C9, as stated, is false: validation does not require the name to
be non-empty.  A Script request with the empty name passes `validate` and
the run creates the file "2026101201 - .sql" (with empty content), so an
empty-name request is not rejected. -/
theorem c9_counterexample :
    (Args.mk .Script "" none none).validate = .ok () ∧
    mainRun ⟨.Script, "", none, none⟩ 5 [] "20261012"
      = .ok ("2026101201 - .sql", "") :=
  ⟨rfl, rfl⟩

/-- Claim C9 amended: the name is required to be supplied by the CLI
parser (it is a mandatory flag), but its contents are never inspected by
validation — `validate` gives the same verdict whatever the name, so an
empty name is accepted. -/
theorem c9_name_unchecked (op : Operation) (n₁ n₂ : String) (c s : Option String) :
    Args.validate ⟨op, n₁, c, s⟩ = Args.validate ⟨op, n₂, c, s⟩ := by
  cases op <;> cases c <;> rfl

/-- Claim C10: composing the filename never panics after validation: for
every request that `validate` accepts, `to_file_name` succeeds — the
column unwrapped for AddColumn, AlterColumn and DropColumn is guaranteed
present. -/
theorem c10_no_panic (a : Args) (h : a.validate = .ok ()) :
    (a.operation.to_file_name a.name a.column).isSome = true := by
  obtain ⟨op, n, c, s⟩ := a
  cases op <;> cases c <;>
    simp_all [Args.validate, Operation.to_file_name]

/-! ## Witnesses: the claim theorems applied at concrete inputs -/

/-- Witness for C1: a Script run with one past-dated entry writes the
file with index 1. -/
theorem c1_witness :
    mainRun ⟨Operation.Script, "m", none, none⟩ 5 [(4, 3)] "20261012"
      = .ok (mkFileName "20261012" 1 "m",
             fileContent ⟨Operation.Script, "m", none, none⟩) := by
  have h := c1_next_index ⟨Operation.Script, "m", none, none⟩ 5 [(4, 3)]
    "20261012" "m" rfl rfl
  exact h.1 (h.2.1 (by decide))

/-- Witness for the amended C2: with two entries tied on the maximum date,
the returned index 2 is that of the last tied entry. -/
theorem c2_witness :
    ∃ pre post, ([(5, 7), (5, 2)] : List (Nat × Int)) = pre ++ (5, 2) :: post ∧
      (∀ e ∈ pre, e.1 ≤ 5) ∧ (∀ e ∈ post, e.1 < 5) :=
  c2_last_of_max_date 5 [(5, 7), (5, 2)] 2 rfl

/-- Witness for C3: a future-dated entry makes the scan and the run fail;
past-or-today entries scan successfully. -/
theorem c3_witness :
    ((∃ msg, find_last_file_for_current_day 10 [(11, 1)] = .error msg) ∧
      (∃ msg, mainRun ⟨Operation.Script, "m", none, none⟩ 10 [(11, 1)]
        "20261012" = .error msg)) ∧
    (∃ v, find_last_file_for_current_day 10 [(9, 1), (10, 2)] = .ok v) :=
  ⟨(c3_future_date 10 [(11, 1)] ⟨Operation.Script, "m", none, none⟩
      "20261012").1 ⟨(11, 1), by decide, by decide⟩,
   (c3_future_date 10 [(9, 1), (10, 2)] ⟨Operation.Script, "m", none, none⟩
      "20261012").2 (by decide)⟩

/-- Witness for C4: an AddColumn request without a column fails
validation. -/
theorem c4_witness :
    ∃ msg, (Args.mk .AddColumn "t" none none).validate = .error msg :=
  (c4_validate_iff ⟨.AddColumn, "t", none, none⟩).1.mpr ⟨Or.inl rfl, rfl⟩

/-- Witness for C6: with only the parent directory marked, `find_root`
from a child returns that marked ancestor. -/
theorem c6_witness :
    (fun l => decide (l = ["a"])) ["a"] = true ∧
    (["a"] : List String) <:+ ["b", "a"] :=
  ⟨((c6_find_root (fun l => decide (l = ["a"])) ["b", "a"]).2 ["a"] rfl).1,
   ((c6_find_root (fun l => decide (l = ["a"])) ["b", "a"]).2 ["a"] rfl).2.1⟩

/-- Witness for C7: an AlterTable request selects no template and writes
an empty file. -/
theorem c7_witness :
    Operation.AlterTable.get_template_data "t" none none = none ∧
    fileContent ⟨Operation.AlterTable, "t", none, none⟩ = "" :=
  (c7_template_selection ⟨Operation.AlterTable, "t", none, none⟩).1
    (Or.inr (Or.inl rfl))

/-- Witness for C8: the create-table data for schema "public" carries the
dot separator and the schema name. -/
theorem c8_witness :
    (⟨"users", none, some "public", some ".", CREATE_TABLE_TMPL⟩ : TemplateData).dot
        = (if (some "public" : Option String).isSome then some "." else none) ∧
    (⟨"users", none, some "public", some ".", CREATE_TABLE_TMPL⟩ : TemplateData).schema_name
        = some "public" :=
  c8_schema_separator.1 Operation.CreateTable "users" (some "public") none _ rfl

/-- Witness for C10: a validated AddColumn request composes its filename
without panicking. -/
theorem c10_witness :
    ((Args.mk .AddColumn "t" (some "c") none).operation.to_file_name
        (Args.mk .AddColumn "t" (some "c") none).name
        (Args.mk .AddColumn "t" (some "c") none).column).isSome = true :=
  c10_no_panic ⟨.AddColumn, "t", some "c", none⟩ rfl

end Gen
